import Mathlib

set_option maxHeartbeats 1000000

/-! Verification of the tag-addressing and data-codec core of an
EtherNet/IP-style automation client: a shallow embedding of the atomic type
codec (`src/template/atomics/index.js`) and of the `Tag` class
(`src/unnamed/part_000`): tag-address validation and decomposition, the
staged-value/controller-value state machine, and write-request construction,
with proofs of the specification's testable properties. -/

namespace EIP

/-! ### Byte-buffer primitives

Node `Buffer`s are modelled as lists of byte values (naturals below 256).
Out-of-bounds reads yield 0 (the theorems below only read in bounds, except
where the source itself checks bounds first); writes reduce modulo 256,
which agrees with Node's behaviour on every in-range write the source
performs. -/

def readUInt8 (data : List Nat) (off : Nat) : Nat := data.getD off 0

def writeUInt8 (data : List Nat) (v off : Nat) : List Nat := data.set off (v % 256)

def readInt8 (data : List Nat) (off : Nat) : Int :=
  let b := data.getD off 0
  if b < 128 then (b : Int) else (b : Int) - 256

def writeInt8 (data : List Nat) (v : Int) (off : Nat) : List Nat :=
  data.set off (v % 256).toNat

def readUInt16LE (data : List Nat) (off : Nat) : Nat :=
  data.getD off 0 + 256 * data.getD (off + 1) 0

def writeUInt16LE (data : List Nat) (v off : Nat) : List Nat :=
  (data.set off (v % 256)).set (off + 1) (v / 256 % 256)

def readInt16LE (data : List Nat) (off : Nat) : Int :=
  let u := readUInt16LE data off
  if u < 2 ^ 15 then (u : Int) else (u : Int) - 2 ^ 16

def writeInt16LE (data : List Nat) (v : Int) (off : Nat) : List Nat :=
  writeUInt16LE data (v % 2 ^ 16).toNat off

def readUInt32LE (data : List Nat) (off : Nat) : Nat :=
  data.getD off 0 + 256 * data.getD (off + 1) 0 + 65536 * data.getD (off + 2) 0 +
    16777216 * data.getD (off + 3) 0

def writeUInt32LE (data : List Nat) (v off : Nat) : List Nat :=
  (((data.set off (v % 256)).set (off + 1) (v / 256 % 256)).set
      (off + 2) (v / 65536 % 256)).set (off + 3) (v / 16777216 % 256)

def readInt32LE (data : List Nat) (off : Nat) : Int :=
  let u := readUInt32LE data off
  if u < 2 ^ 31 then (u : Int) else (u : Int) - 2 ^ 32

def writeInt32LE (data : List Nat) (v : Int) (off : Nat) : List Nat :=
  writeUInt32LE data (v % 2 ^ 32).toNat off

def readBigUInt64LE (data : List Nat) (off : Nat) : Nat :=
  readUInt32LE data off + 4294967296 * readUInt32LE data (off + 4)

def writeBigUInt64LE (data : List Nat) (v off : Nat) : List Nat :=
  writeUInt32LE (writeUInt32LE data (v % 2 ^ 64 % 4294967296) off)
    (v % 2 ^ 64 / 4294967296) (off + 4)

/-! ### JavaScript 32-bit integer bit operations -/

/-- The unsigned 32-bit pattern of a JavaScript number coerced by `ToInt32`. -/
def toUInt32 (x : Int) : Nat := (x % 2 ^ 32).toNat

/-- The signed JavaScript number denoted by an unsigned 32-bit pattern. -/
def ofUInt32 (n : Nat) : Int := if n < 2 ^ 31 then (n : Int) else (n : Int) - 2 ^ 32

/-- JavaScript bitwise AND (`a & b`) on 32-bit two's-complement integers. -/
def jsAnd (a b : Int) : Int := ofUInt32 (Nat.land (toUInt32 a) (toUInt32 b))

/-- The unsigned 32-bit pattern of JavaScript `~x` for a nonnegative 32-bit
`x`; the source only uses it under a following bitwise AND. -/
def jsNotU32 (x : Nat) : Nat := 2 ^ 32 - 1 - x % 2 ^ 32

/-! ### The atomic type codec (`src/template/atomics/index.js`)

One namespace per primitive-type template; `serialize`/`deserialize` are the
table entries' operations, with the buffer and bit-offset arguments explicit
(the source's defaults `Buffer.alloc(n)` and `0` are passed explicitly at
the use sites below). -/

namespace Atomics

namespace BOOL

def serialize (value : Bool) (data : List Nat) (offset : Nat) : List Nat :=
  let bit_offset := offset % 8
  let byte_offset := (offset - bit_offset) / 8
  let byte_value := readUInt8 data byte_offset
  writeUInt8 data
    (if value then Nat.lor byte_value (1 <<< bit_offset)
     else Nat.land byte_value (Nat.land 255 (jsNotU32 (1 <<< bit_offset))))
    byte_offset

def deserialize (data : List Nat) (offset : Nat) : Bool :=
  let bit_offset := offset % 8
  let byte_offset := (offset - bit_offset) / 8
  if jsAnd (readInt8 data byte_offset) ((1 <<< bit_offset : Nat) : Int) = 0 then false
  else true

end BOOL

namespace SINT

def serialize (value : Int) (data : List Nat) (offset : Nat) : List Nat :=
  writeInt8 data value (offset / 8)

def deserialize (data : List Nat) (offset : Nat) : Int :=
  let offsetBytes := offset / 8
  if data.length ≤ offsetBytes then 0 else readInt8 data (offset / 8)

end SINT

namespace USINT

def serialize (value : Nat) (data : List Nat) (offset : Nat) : List Nat :=
  writeUInt8 data value (offset / 8)

def deserialize (data : List Nat) (offset : Nat) : Nat :=
  readUInt8 data (offset / 8)

end USINT

namespace INT

def serialize (value : Int) (data : List Nat) (offset : Nat) : List Nat :=
  writeInt16LE data value (offset / 8)

def deserialize (data : List Nat) (offset : Nat) : Int :=
  readInt16LE data (offset / 8)

end INT

namespace UINT

def serialize (value : Nat) (data : List Nat) (offset : Nat) : List Nat :=
  writeUInt16LE data value (offset / 8)

def deserialize (data : List Nat) (offset : Nat) : Nat :=
  readUInt16LE data (offset / 8)

end UINT

namespace WORD

def serialize (value : Nat) (data : List Nat) (offset : Nat) : List Nat :=
  writeUInt16LE data value (offset / 8)

def deserialize (data : List Nat) (offset : Nat) : Nat :=
  readUInt16LE data (offset / 8)

end WORD

namespace DINT

def serialize (value : Int) (data : List Nat) (offset : Nat) : List Nat :=
  writeInt32LE data value (offset / 8)

def deserialize (data : List Nat) (offset : Nat) : Int :=
  readInt32LE data (offset / 8)

end DINT

namespace UDINT

def serialize (value : Nat) (data : List Nat) (offset : Nat) : List Nat :=
  writeUInt32LE data value (offset / 8)

def deserialize (data : List Nat) (offset : Nat) : Nat :=
  readUInt32LE data (offset / 8)

end UDINT

namespace LINT

/-- 64-bit values are `(low, high)` pairs of signed 32-bit words, exactly as
the source represents them (`value.low`, `value.high`). -/
def serialize (value : Int × Int) (data : List Nat) (offset : Nat) : List Nat :=
  writeInt32LE (writeInt32LE data value.1 (offset / 8)) value.2 (offset / 8 + 4)

def deserialize (data : List Nat) (offset : Nat) : Int × Int :=
  (readInt32LE data (offset / 8), readInt32LE data (offset / 8 + 4))

end LINT

namespace REAL

/-- A 32-bit float is modelled by its IEEE-754 binary32 bit pattern: the
source's `writeFloatLE`/`readFloatLE` move exactly this little-endian
pattern through the buffer, and the pattern determines the float. -/
def serialize (pattern : Nat) (data : List Nat) (offset : Nat) : List Nat :=
  writeUInt32LE data pattern (offset / 8)

def deserialize (data : List Nat) (offset : Nat) : Nat :=
  readUInt32LE data (offset / 8)

end REAL

namespace LREAL

/-- As in the source, LREAL shares the `(low, high)` pair representation and
the two-word little-endian layout of LINT. -/
def serialize (value : Int × Int) (data : List Nat) (offset : Nat) : List Nat :=
  writeInt32LE (writeInt32LE data value.1 (offset / 8)) value.2 (offset / 8 + 4)

def deserialize (data : List Nat) (offset : Nat) : Int × Int :=
  (readInt32LE data (offset / 8), readInt32LE data (offset / 8 + 4))

end LREAL

namespace TIME

/-- `serialize` takes the raw unsigned 64-bit word (`writeBigUInt64LE`),
without any conversion. -/
def serialize (value : Nat) (data : List Nat) (offset : Nat) : List Nat :=
  writeBigUInt64LE data value (offset / 8)

/-- `deserialize` converts the decoded 64-bit nanosecond count to fractional
seconds (`Number(...) / 1000000000` in the source); the quotient is exact in
JavaScript for the counts used in the theorems below, so it is modelled as a
rational. -/
def deserialize (data : List Nat) (offset : Nat) : ℚ :=
  ((readBigUInt64LE data (offset / 8) : ℚ) / 1000000000)

end TIME

namespace TIME_NSEC

def serialize (value : Nat) (data : List Nat) (offset : Nat) : List Nat :=
  writeBigUInt64LE data value (offset / 8)

def deserialize (data : List Nat) (offset : Nat) : ℚ :=
  ((readBigUInt64LE data (offset / 8) : ℚ) / 1000000000)

end TIME_NSEC

end Atomics

/-! ### JSON-like values and `JSON.stringify`

`Tag` values are JavaScript values, compared by `JSON.stringify` equality in
the `controller_value` setter. The value universe is modelled by `JsonVal`:
`null`, booleans, (integer) numbers, strings, and objects with ordered
fields — JavaScript objects enumerate keys in insertion order and
`JSON.stringify` serializes them in that order. `stringifyJ` is
`JSON.stringify` restricted to this universe: numbers print in decimal,
strings escape exactly the characters `JSON.stringify` escapes. -/

inductive JsonVal : Type where
  | null : JsonVal
  | bool (b : Bool) : JsonVal
  | num (n : Int) : JsonVal
  | str (s : List Char) : JsonVal
  | obj (fields : List (List Char × JsonVal)) : JsonVal

def JsonVal.isNull : JsonVal → Bool
  | .null => true
  | _ => false

def digitCh (d : Nat) : Char := Char.ofNat (48 + d)

def digitVal (c : Char) : Nat := c.toNat - 48

/-- Little-endian decimal digits of `n`, with explicit fuel (any fuel at
least `n` is enough, since a number has no more digits than its value). -/
def natDigitsAux : Nat → Nat → List Nat
  | 0, _ => []
  | _ + 1, 0 => []
  | fuel + 1, n => n % 10 :: natDigitsAux fuel (n / 10)

/-- Decimal rendering of a natural number, most significant digit first
(JavaScript's integer-to-string conversion). -/
def natRender (n : Nat) : List Char :=
  if n = 0 then [digitCh 0] else (natDigitsAux n n).reverse.map digitCh

def intRender (n : Int) : List Char :=
  if n < 0 then '-' :: natRender n.natAbs else natRender n.toNat

def hexCh (d : Nat) : Char := if d < 10 then digitCh d else Char.ofNat (87 + d)

def quoteCh : Char := Char.ofNat 34

def backslashCh : Char := Char.ofNat 92

def lbraceCh : Char := Char.ofNat 123

def rbraceCh : Char := Char.ofNat 125

/-- The JSON escape of one character, as `JSON.stringify` produces it:
quote, backslash and the named control characters get two-character
escapes, the remaining control characters a `\u00XX` escape, and
everything else stands for itself. -/
def escChar (c : Char) : List Char :=
  if c = quoteCh then [backslashCh, quoteCh]
  else if c = backslashCh then [backslashCh, backslashCh]
  else if c = Char.ofNat 8 then [backslashCh, 'b']
  else if c = Char.ofNat 9 then [backslashCh, 't']
  else if c = Char.ofNat 10 then [backslashCh, 'n']
  else if c = Char.ofNat 12 then [backslashCh, 'f']
  else if c = Char.ofNat 13 then [backslashCh, 'r']
  else if c.toNat < 32 then
    [backslashCh, 'u', digitCh 0, digitCh 0, hexCh (c.toNat / 16), hexCh (c.toNat % 16)]
  else [c]

def escapeChars (s : List Char) : List Char := s.foldr (fun c acc => escChar c ++ acc) []

mutual

def stringifyJ : JsonVal → List Char
  | .null => "null".toList
  | .bool true => "true".toList
  | .bool false => "false".toList
  | .num n => intRender n
  | .str s => quoteCh :: (escapeChars s ++ [quoteCh])
  | .obj [] => [lbraceCh, rbraceCh]
  | .obj (f :: fs) => lbraceCh :: (fieldsRender (f :: fs) ++ [rbraceCh])

def fieldsRender : List (List Char × JsonVal) → List Char
  | [] => []
  | [(k, v)] => quoteCh :: (escapeChars k ++ quoteCh :: ':' :: stringifyJ v)
  | (k, v) :: f :: fs =>
    (quoteCh :: (escapeChars k ++ quoteCh :: ':' :: stringifyJ v)) ++ ',' :: fieldsRender (f :: fs)

end

/-! A fuel-indexed parser inverting `stringifyJ`; it exists only to prove
`stringifyJ` injective (so `JSON.stringify` equality is equality of the
modelled values with their ordered fields). -/

mutual

def jweight : JsonVal → Nat
  | .obj fs => 1 + fweight fs
  | _ => 1

def fweight : List (List Char × JsonVal) → Nat
  | [] => 1
  | (_, v) :: fs => jweight v + fweight fs

end

def unescCh (d : Char) : Char :=
  if d = 'b' then Char.ofNat 8
  else if d = 't' then Char.ofNat 9
  else if d = 'n' then Char.ofNat 10
  else if d = 'f' then Char.ofNat 12
  else if d = 'r' then Char.ofNat 13
  else d

def hexVal (c : Char) : Nat := if c.toNat ≤ 57 then c.toNat - 48 else c.toNat - 87

/-- The character a four-hex-digit `\uXXXX` escape denotes. -/
def uChar (h1 h2 h3 h4 : Char) : Char :=
  Char.ofNat (((hexVal h1 * 16 + hexVal h2) * 16 + hexVal h3) * 16 + hexVal h4)

def parseStrBody : List Char → Option (List Char × List Char)
  | [] => none
  | c :: rest =>
    if c = quoteCh then some ([], rest)
    else if c = backslashCh then
      match rest with
      | 'u' :: h1 :: h2 :: h3 :: h4 :: rest3 =>
        (parseStrBody rest3).map fun p => (uChar h1 h2 h3 h4 :: p.1, p.2)
      | d :: rest2 =>
        if d = 'u' then none
        else (parseStrBody rest2).map fun p => (unescCh d :: p.1, p.2)
      | [] => none
    else (parseStrBody rest).map fun p => (c :: p.1, p.2)

def parseNatTok (s : List Char) : Option (Nat × List Char) :=
  let run := s.takeWhile Char.isDigit
  if run.isEmpty then none
  else some (run.foldl (fun a c => 10 * a + digitVal c) 0, s.dropWhile Char.isDigit)

mutual

def parseJ : Nat → List Char → Option (JsonVal × List Char)
  | 0, _ => none
  | _ + 1, [] => none
  | fuel + 1, c :: cs =>
    if c = 'n' then
      match cs with
      | 'u' :: 'l' :: 'l' :: r => some (.null, r)
      | _ => none
    else if c = 't' then
      match cs with
      | 'r' :: 'u' :: 'e' :: r => some (.bool true, r)
      | _ => none
    else if c = 'f' then
      match cs with
      | 'a' :: 'l' :: 's' :: 'e' :: r => some (.bool false, r)
      | _ => none
    else if c = quoteCh then (parseStrBody cs).map fun p => (.str p.1, p.2)
    else if c = lbraceCh then
      match cs with
      | [] => none
      | d :: ds =>
        if d = rbraceCh then some (.obj [], ds)
        else (parseFields fuel (d :: ds)).map fun p => (.obj p.1, p.2)
    else if c = '-' then
      match parseNatTok cs with
      | some (m, r) => some (.num (-(m : Int)), r)
      | none => none
    else if c.isDigit then
      match parseNatTok (c :: cs) with
      | some (m, r) => some (.num (m : Int), r)
      | none => none
    else none

def parseFields : Nat → List Char → Option (List (List Char × JsonVal) × List Char)
  | 0, _ => none
  | _ + 1, [] => none
  | fuel + 1, q :: r0 =>
    if q = quoteCh then
      match parseStrBody r0 with
      | some (k, r1) =>
        match r1 with
        | [] => none
        | colon :: r2 =>
          if colon = ':' then
            match parseJ fuel r2 with
            | some (v, r3) =>
              match r3 with
              | [] => none
              | s :: r4 =>
                if s = rbraceCh then some ([(k, v)], r4)
                else if s = ',' then (parseFields fuel r4).map fun p => ((k, v) :: p.1, p.2)
                else none
            | none => none
          else none
      | none => none
    else none

end

/-! ### CIP type codes and service identifiers

The numeric type codes and service codes come from `src/enip/cip/data-types`
and `src/enip/cip/message-router`, which are not among the files under
verification. Modelled from the spec: a fixed table of primitive-type
descriptors keyed by a numeric type code, structure/string discriminators,
and distinct read/write/masked-write service identifiers; only the
identities and distinctness of the codes matter, and the standard CIP
values are used. -/

namespace Types

def BOOL : Nat := 0xc1
def SINT : Nat := 0xc2
def INT : Nat := 0xc3
def DINT : Nat := 0xc4
def LINT : Nat := 0xc5
def USINT : Nat := 0xc6
def UINT : Nat := 0xc7
def UDINT : Nat := 0xc8
def REAL : Nat := 0xca
def LREAL : Nat := 0xcb
def WORD : Nat := 0xd2
def BIT_STRING : Nat := 0xd3
def TIME : Nat := 0xdb
def TIME_NSEC : Nat := 0x10e
def STRUCT : Nat := 0x2a0
def STRING : Nat := 0xfce

/-- Modelled from the spec: `isValidTypeCode` of the external data-types
module accepts exactly the table's numeric codes. -/
def isValidTypeCode (c : Nat) : Bool :=
  [BOOL, SINT, INT, DINT, LINT, USINT, UINT, UDINT, REAL, LREAL, WORD,
    BIT_STRING, TIME, TIME_NSEC, STRUCT, STRING].contains c

end Types

def READ_TAG : Nat := 0x4c
def WRITE_TAG : Nat := 0x4d
def READ_MODIFY_WRITE_TAG : Nat := 0x4e

/-- The source's duck-typed datatype field: a numeric type code or a
structured-type name. -/
inductive DType : Type where
  | code (c : Nat) : DType
  | sname (s : List Char) : DType
deriving DecidableEq

/-! ### Tagname validation (`Tag.isValidTagname`)

The two anchored regexes are reimplemented as recognizers. The name
component `(_?[a-zA-Z]|_\d)(?:(?=(_?[a-zA-Z0-9]))\k)*` consumes a first
unit (`_?letter` or `_digit`) and then units of `_x` or `x` with `x`
alphanumeric; since in every position the regex continues with a
non-word character (`.`, `[`, `:`, `,` or the end), a name token always
covers a maximal word-character run, which is what the recognizer
checks. -/

def isWordChar (c : Char) : Bool := c.isAlpha || c.isDigit || c = '_'

def nameRest : List Char → Bool
  | [] => true
  | '_' :: c :: rest => (c.isAlpha || c.isDigit) && nameRest rest
  | c :: rest => (c.isAlpha || c.isDigit) && nameRest rest

def isName : List Char → Bool
  | [] => false
  | ['_'] => false
  | '_' :: c :: rest => (c.isAlpha || c.isDigit) && nameRest rest
  | c :: rest => c.isAlpha && nameRest rest

/-- `\[\d+(,\d+){0,2}]` (and `\[\d+]` for `extra = 0`): after the opening
bracket, up to `extra + 1` comma-separated digit runs, then the closing
bracket; returns the remaining input. -/
def parseDims (extra : Nat) (s : List Char) : Option (List Char) :=
  let run := s.takeWhile Char.isDigit
  let r := s.dropWhile Char.isDigit
  if run.isEmpty then none
  else
    match r with
    | ']' :: r2 => some r2
    | ',' :: r2 =>
      match extra with
      | 0 => none
      | e + 1 => parseDims e r2
    | _ => none

/-- The user grammar's tail after the root segment:
`(\.name(\[\d+])?)*(\.\d{1,2})?$`. Fuel bounds the member loop; each
iteration consumes at least the dot, so the input length is enough fuel. -/
def userTail : Nat → List Char → Bool
  | _, [] => true
  | 0, _ => false
  | fuel + 1, '.' :: rest =>
    let run := rest.takeWhile isWordChar
    let r := rest.dropWhile isWordChar
    if isName run then
      match r with
      | '[' :: r2 =>
        match parseDims 0 r2 with
        | some r3 => userTail fuel r3
        | none => false
      | _ => userTail fuel r
    else (!run.isEmpty) && decide (run.length ≤ 2) && run.all Char.isDigit && r.isEmpty
  | _ + 1, _ => false

def userBody (fuel : Nat) (s : List Char) : Bool :=
  let run := s.takeWhile isWordChar
  let r := s.dropWhile isWordChar
  isName run &&
    match r with
    | '[' :: r2 =>
      match parseDims 2 r2 with
      | some r3 => userTail fuel r3
      | none => false
    | _ => userTail fuel r

def userValid (s : List Char) : Bool :=
  (match s with
   | 'P' :: 'r' :: 'o' :: 'g' :: 'r' :: 'a' :: 'm' :: ':' :: rest =>
     let run := rest.takeWhile isWordChar
     let r := rest.dropWhile isWordChar
     isName run &&
       match r with
       | '.' :: r2 => userBody r2.length r2
       | _ => false
   | _ => false)
  || userBody s.length s

/-- `(\.\d{1,2})?$`: nothing, or a dot and one or two digits. -/
def bitTail : List Char → Bool
  | [] => true
  | '.' :: rest => (!rest.isEmpty) && decide (rest.length ≤ 2) && rest.all Char.isDigit
  | _ => false

/-- The module grammar's tail after `:[IOC]`:
`(\.name(\[\d+])?)?(\.\d{1,2})?$`. -/
def moduleTail : List Char → Bool
  | [] => true
  | '.' :: rest =>
    let run := rest.takeWhile isWordChar
    let r := rest.dropWhile isWordChar
    if isName run then
      match r with
      | '[' :: r2 =>
        match parseDims 0 r2 with
        | some r3 => bitTail r3
        | none => false
      | _ => bitTail r
    else (!run.isEmpty) && decide (run.length ≤ 2) && run.all Char.isDigit && r.isEmpty
  | _ => false

def iocTail : List Char → Bool
  | [] => false
  | c :: rest => (c = 'I' || c = 'O' || c = 'C') && moduleTail rest

def moduleValid (s : List Char) : Bool :=
  let run := s.takeWhile isWordChar
  let r := s.dropWhile isWordChar
  isName run &&
    match r with
    | ':' :: r2 =>
      let drun := r2.takeWhile Char.isDigit
      let r3 := r2.dropWhile Char.isDigit
      if drun.isEmpty then iocTail r2
      else
        decide (drun.length ≤ 2) &&
          match r3 with
          | ':' :: r4 => iocTail r4
          | _ => false
    | _ => false

/-- `String.prototype.split` on a separator class: the list of (possibly
empty) runs between separators. -/
def splitChars (isSep : Char → Bool) : List Char → List (List Char)
  | [] => [[]]
  | c :: rest =>
    match splitChars isSep rest with
    | [] => [[c]]
    | g :: gs => if isSep c then [] :: g :: gs else (c :: g) :: gs

/-- The 40-character segment cap: `tagname.split(/[:.[\],]/)` has no
segment longer than 40 characters. -/
def seg40ok (s : List Char) : Bool :=
  ((splitChars (fun c => c = ':' || c = '.' || c = '[' || c = ']' || c = ',') s).filter
    (fun seg => 40 < seg.length)).isEmpty

def isValidTagname (tagname : List Char) : Bool :=
  (userValid tagname || moduleValid tagname) && seg40ok tagname

/-! ### Tag-address decomposition (`Tag` constructor, lines 32–64) -/

/-- `tagname.split(/[.[\],]/)` with empty segments removed. -/
def splitPath (tagname : List Char) : List (List Char) :=
  (splitChars (fun c => c = '.' || c = '[' || c = ']' || c = ',') tagname).filter
    (fun seg => 0 < seg.length)

/-- `tagname.split(".")` (keeps empty segments, as JavaScript does). -/
def splitDots (tagname : List Char) : List (List Char) :=
  splitChars (fun c => c = '.') tagname

/-- JavaScript `seg % 1 === 0` coerces the string to a number and tests
integrality; on segments of a validated tagname (names, module designators,
digit runs) it holds exactly for the nonempty all-digit segments, which is
how it is modelled. -/
def isNumericSeg (s : List Char) : Bool := (!s.isEmpty) && s.all Char.isDigit

/-- `parseInt` on the all-digit segments the source applies it to (numeric
segments are modelled exactly; JavaScript floats lose precision only beyond
2^53). -/
def strToNat (s : List Char) : Nat := s.foldl (fun a c => 10 * a + digitVal c) 0

/-- `isBitIndex` of the constructor: the tagname has more than one
dot-separated part and the last is numeric. -/
def isBitIndexCond (tagname : List Char) : Bool :=
  decide (1 < (splitDots tagname).length) && isNumericSeg ((splitDots tagname).getLastD [])

/-- `isBitString` of the constructor: the declared datatype is BIT_STRING
and the last path segment is numeric. -/
def isBitStringCond (tagname : List Char) (datatype : Option DType) : Bool :=
  decide (datatype = some (.code Types.BIT_STRING)) &&
    isNumericSeg ((splitPath tagname).getLastD [])

structure ParsedPath where
  segs : List (List Char)
  bitIndex : Option Nat
deriving DecidableEq

/-- Lines 32–64 of the constructor: path decomposition, the two mutually
exclusive bit-index rules, the BIT_STRING remap and the 0–31 range check. -/
def parsePathAndBit (tagname : List Char) (datatype : Option DType) :
    Except String ParsedPath :=
  let pathArr := splitPath tagname
  if isBitStringCond tagname datatype && isBitIndexCond tagname then
    .error "Tag cannot be defined as a BIT_STRING and have a bit index"
  else if isBitStringCond tagname datatype then
    let n := strToNat (pathArr.getLastD [])
    let bitIndex := n % 32
    .ok ⟨pathArr.dropLast ++ [natRender ((n - bitIndex) / 32)], some bitIndex⟩
  else if isBitIndexCond tagname then
    let bitIndex := strToNat (pathArr.getLastD [])
    if 31 < bitIndex then .error "Tag bit index must be between 0 and 31"
    else .ok ⟨pathArr.dropLast, some bitIndex⟩
  else .ok ⟨pathArr, none⟩

/-! ### The Tag state machine -/

inductive TagEvent : Type where
  | Initialized : TagEvent
  | Changed (lastValue : JsonVal) : TagEvent
  | KeepAlive : TagEvent

/-- Modelled from the spec: the external structured-type resolver returns
templates exposing `serialize` and a numeric `structure_handle`. -/
structure TemplateM where
  serializeV : JsonVal → List Nat
  structure_handle : Nat

/-- Modelled from the spec: the bound controller context, whose `templates`
table may be absent. -/
structure ControllerM where
  templates : Option (DType → Option TemplateM)

/-- `this.state` of a `Tag`, flattened: the `tag` record, read size, the
timestamp (milliseconds), the identity hash and the keep-alive seconds. -/
structure TagM where
  bitIndex : Option Nat
  program : Option (List Char)
  name : List Char
  type : Option DType
  value : JsonVal
  controller : Option ControllerM
  controllerValue : JsonVal
  path : List Nat
  stage_write : Bool
  read_size : Nat
  timestamp : Nat
  instId : List Char
  keepAlive : Int

/-- Modelled from the spec: the request envelope builder
(`MessageRouter.build`) packages a service identifier, the wire path and the
payload; only this triple matters here. -/
structure RouterRequest where
  service : Nat
  path : List Nat
  data : List Nat

/-- The `Tag` constructor. `encodeSeg` is the external path-segment encoder
(`CIP.EPATH.segments.DATA.build`) and `hashFn` the external md5 digest; both
are opaque collaborators, so they are parameters. `now` is the construction
time in milliseconds. -/
def tagCtor (encodeSeg : List Char → List Nat) (hashFn : List Nat → List Char)
    (tagname : List Char) (program : Option (List Char)) (datatype : Option DType)
    (keepAlive : Int) (now : Nat) : Except String TagM :=
  if !isValidTagname tagname then .error "Tagname Must be of Type string"
  else if (match datatype with
           | some (.code c) => !Types.isValidTypeCode c
           | _ => false) then
    .error "Datatype must be a Valid Type Code number or string"
  else if keepAlive < 0 then .error "Tag expected keepAlive to be greater than 0"
  else
    match parsePathAndBit tagname datatype with
    | .error e => .error e
    | .ok pp =>
      let bufArr :=
        (match program with
         | some p => [encodeSeg ("Program:".toList ++ p)]
         | none => []) ++ pp.segs.map encodeSeg
      let pathBuf := bufArr.flatten
      let bitIndexBuf := [(match pp.bitIndex with | none => 32 | some b => b) % 256]
      let instanceBuf := pathBuf ++ bitIndexBuf
      .ok
        { bitIndex := pp.bitIndex
          program := program
          name := tagname
          type := datatype
          value := .null
          controller := none
          controllerValue := .null
          path := pathBuf
          stage_write := false
          read_size := 1
          timestamp := now
          instId := hashFn instanceBuf
          keepAlive := keepAlive }

/-- The `name` setter: validate, then update only the stored name. -/
def nameSet (s : TagM) (n : List Char) : Except String TagM :=
  if !isValidTagname n then .error "Tagname Must be of Type string"
  else .ok { s with name := n }

/-- The `value` setter: stage a write and store the new local value. -/
def valueSet (s : TagM) (newValue : JsonVal) : TagM :=
  { s with stage_write := true, value := newValue }

/-- The `controller_value` setter: compare by `JSON.stringify`; on a change
record the previous value, propagate to the local value unless a write is
staged, refresh the timestamp and emit `Initialized` or `Changed`; on
equality re-announce via `KeepAlive` when the keep-alive window elapsed. -/
def controllerValueSet (s : TagM) (newValue : JsonVal) (now : Nat) :
    TagM × List TagEvent :=
  if stringifyJ newValue ≠ stringifyJ s.controllerValue then
    let lastValue := s.controllerValue
    let s1 := { s with controllerValue := newValue
                       value := if s.stage_write then s.value else newValue
                       timestamp := now }
    if !lastValue.isNull then (s1, [.Changed lastValue]) else (s1, [.Initialized])
  else
    if 0 < s.keepAlive ∧ s.keepAlive * 1000 ≤ (now : Int) - (s.timestamp : Int) then
      let s1 := { s with controllerValue := newValue
                         value := if s.stage_write then s.value else newValue
                         timestamp := now }
      (s1, [.KeepAlive])
    else (s, [])

/-- `unstageWriteRequest`: clear the staged flag and reset the local value
to the last controller value. -/
def unstageWriteRequest (s : TagM) : TagM :=
  { s with stage_write := false, value := s.controllerValue }

/-- JavaScript truthiness of the modelled values: `null`, `false`, `0` and
the empty string are falsy. -/
def jsTruthy : JsonVal → Bool
  | .null => false
  | .bool b => b
  | .num n => !decide (n = 0)
  | .str s => !s.isEmpty
  | .obj _ => true

/-- `_getTemplate`: controller, its template table and the tag's type must
all be present and resolve. -/
def getTemplate (s : TagM) : Except String TemplateM :=
  match s.controller with
  | none => .error "Template read error - tag controller property not set"
  | some ctl =>
    match ctl.templates with
    | none => .error "Template read error - tag controller templates property not set"
    | some tms =>
      match s.type with
      | none => .error "Template read error - tag type property not set"
      | some ty =>
        match tms ty with
        | none => .error "Template read error - cannot find template"
        | some t => .ok t

/-- `generateWriteMessageRequest`: optionally replace the local value, then
build a masked read-modify-write request when a bit index is present (mask
width by underlying type), else a WRITE_TAG request from the resolved
template. Returns the updated tag alongside the request. -/
def generateWriteMessageRequest (s0 : TagM) (value : Option JsonVal) (size : Nat) :
    Except String (TagM × RouterRequest) :=
  let s := match value with
    | some v => { s0 with value := v }
    | none => s0
  match s.type with
  | none => .error "Tag has not been initialized"
  | some ty =>
    match s.bitIndex with
    | some bi =>
      if ty = .code Types.SINT then
        let buf := writeUInt8 (writeUInt8 (writeInt16LE (List.replicate 4 0) 1 0)
          (if jsTruthy s.value then 1 <<< bi else 0) 2)
          (if jsTruthy s.value then 255 else Nat.land 255 (jsNotU32 (1 <<< bi))) 3
        .ok (s, ⟨READ_MODIFY_WRITE_TAG, s.path, buf⟩)
      else if ty = .code Types.INT then
        let buf := writeUInt16LE (writeUInt16LE (writeInt16LE (List.replicate 6 0) 2 0)
          (if jsTruthy s.value then 1 <<< bi else 0) 2)
          (if jsTruthy s.value then 65535 else Nat.land 65535 (jsNotU32 (1 <<< bi))) 4
        .ok (s, ⟨READ_MODIFY_WRITE_TAG, s.path, buf⟩)
      else if ty = .code Types.DINT ∨ ty = .code Types.BIT_STRING then
        let buf := writeInt32LE (writeInt32LE (writeInt16LE (List.replicate 10 0) 4 0)
          (if jsTruthy s.value then ((1 <<< bi : Nat) : Int) else 0) 2)
          (if jsTruthy s.value then (-1 : Int) else jsAnd (-1) (ofUInt32 (jsNotU32 (1 <<< bi)))) 6
        .ok (s, ⟨READ_MODIFY_WRITE_TAG, s.path, buf⟩)
      else .error "Bit Indexes can only be used on SINT, INT, DINT, or BIT_STRING data types."
    | none =>
      match getTemplate s with
      | .error e => .error e
      | .ok template =>
        match ty with
        | .sname _ =>
          let buf := writeUInt16LE (writeUInt16LE (writeUInt16LE (List.replicate 6 0)
            Types.STRUCT 0) template.structure_handle 2) size 4
          .ok (s, ⟨WRITE_TAG, s.path, buf ++ template.serializeV s.value⟩)
        | .code c =>
          let buf := writeUInt16LE (writeUInt16LE (List.replicate 4 0) c 0) size 2
          .ok (s, ⟨WRITE_TAG, s.path, buf ++ template.serializeV s.value⟩)

/-! ### Auxiliary definitions for the theorems below -/

/-- Guard for the number case of the parser round trip: after a rendered
number the remaining input must not begin with a digit. -/
def numGuardP : JsonVal → List Char → Prop
  | .num _, rest => ∀ c ∈ rest.head?, c.isDigit = false
  | _, _ => True

def lookupF (k : List Char) : List (List Char × JsonVal) → Option JsonVal
  | [] => none
  | (k2, v) :: fs => if k2 = k then some v else lookupF k fs

mutual

/-- Modelled from the spec: "deep structural equality" of JavaScript values
as deep-equality utilities implement it — recursive equality that is
insensitive to object key order. Stated only to compare with what the code
does (`JSON.stringify` string comparison); the source itself contains no
such function. -/
def jsonDeepEqSpec : JsonVal → JsonVal → Bool
  | .null, .null => true
  | .bool a, .bool b => a == b
  | .num a, .num b => a == b
  | .str a, .str b => a == b
  | .obj fa, .obj fb => fa.length == fb.length && fieldsSubset fa fb
  | _, _ => false

/-- Every field of the first list resolves in the second to a
spec-deep-equal value. -/
def fieldsSubset : List (List Char × JsonVal) → List (List Char × JsonVal) → Bool
  | [], _ => true
  | (k, v) :: fs, fb =>
    (match lookupF k fb with
     | some w => jsonDeepEqSpec v w
     | none => false) && fieldsSubset fs fb

end

def isErr {ε α : Type} : Except ε α → Bool
  | .error _ => true
  | .ok _ => false

/-- The bit index of a successfully constructed tag (`none` when the
construction failed). -/
def exceptBitIndex : Except String TagM → Option (Option Nat)
  | .ok t => some t.bitIndex
  | .error _ => none

/-- A concrete path-segment encoder standing in for the external
`CIP.EPATH.segments.DATA.build` in witness evaluations. -/
def encodeSegEx (seg : List Char) : List Nat := seg.map Char.toNat ++ [0]

/-- A concrete digest standing in for the external md5 in witness
evaluations. -/
def hashFnEx (bytes : List Nat) : List Char :=
  natRender (bytes.foldl (fun a b => a * 31 + b) 7)

/-- A concrete tag state used by the witnesses. -/
def exTag : TagM :=
  { bitIndex := none
    program := none
    name := "tag".toList
    type := none
    value := .null
    controller := none
    controllerValue := .null
    path := [145, 3, 116, 97, 103]
    stage_write := false
    read_size := 1
    timestamp := 0
    instId := []
    keepAlive := 0 }

/-- A tag state with a staged local edit. -/
def exTagStaged : TagM := { exTag with stage_write := true, value := .num 3 }

/-- A tag state with keep-alive of one second and a known controller
value read at time 1000 ms. -/
def exTagKA : TagM :=
  { exTag with keepAlive := 1, controllerValue := .num 5, value := .num 5, timestamp := 1000 }

/-- An INT tag addressing bit 3 with a truthy staged value. -/
def exTagINTtrue : TagM :=
  { exTag with type := some (.code Types.INT), bitIndex := some 3, value := .bool true }

/-- An INT tag addressing bit 3 with a falsy staged value. -/
def exTagINTfalse : TagM :=
  { exTag with type := some (.code Types.INT), bitIndex := some 3, value := .num 0 }

/-! ## Helper lemmas: atomic codec round trips -/

set_option maxRecDepth 10000 in
/-- Exhaustive check of the boolean template on one shared byte: the
round trip holds at every bit offset, and serialization leaves every other
bit of the byte unchanged. -/
theorem boolRoundtrip : ∀ b : Nat, b < 256 → ∀ off : Nat, off < 8 → ∀ v : Bool,
    Atomics.BOOL.deserialize (Atomics.BOOL.serialize v [b] off) off = v ∧
    (∀ j : Nat, j < 8 → j ≠ off →
      Nat.testBit (readUInt8 (Atomics.BOOL.serialize v [b] off) 0) j = Nat.testBit b j) := by
  decide

theorem sintRoundtrip (v : Int) (h1 : -128 ≤ v) (h2 : v < 128) :
    Atomics.SINT.deserialize (Atomics.SINT.serialize v (List.replicate 1 0) 0) 0 = v := by
  simp [Atomics.SINT.deserialize, Atomics.SINT.serialize, writeInt8, readInt8, List.set,
    List.getD]
  split <;> omega

theorem usintRoundtrip (v : Nat) (h : v < 256) :
    Atomics.USINT.deserialize (Atomics.USINT.serialize v (List.replicate 1 0) 0) 0 = v := by
  simp [Atomics.USINT.deserialize, Atomics.USINT.serialize, writeUInt8, readUInt8, List.set,
    List.getD]
  omega

theorem intRoundtrip (v : Int) (h1 : -(2 ^ 15) ≤ v) (h2 : v < 2 ^ 15) :
    Atomics.INT.deserialize (Atomics.INT.serialize v (List.replicate 2 0) 0) 0 = v := by
  simp [Atomics.INT.deserialize, Atomics.INT.serialize, writeInt16LE, writeUInt16LE,
    readInt16LE, readUInt16LE, List.set, List.getD]
  split <;> omega

theorem uintRoundtrip (v : Nat) (h : v < 2 ^ 16) :
    Atomics.UINT.deserialize (Atomics.UINT.serialize v (List.replicate 2 0) 0) 0 = v := by
  simp [Atomics.UINT.deserialize, Atomics.UINT.serialize, writeUInt16LE, readUInt16LE,
    List.set, List.getD]
  omega

theorem wordRoundtrip (v : Nat) (h : v < 2 ^ 16) :
    Atomics.WORD.deserialize (Atomics.WORD.serialize v (List.replicate 2 0) 0) 0 = v := by
  simp [Atomics.WORD.deserialize, Atomics.WORD.serialize, writeUInt16LE, readUInt16LE,
    List.set, List.getD]
  omega

theorem dintRoundtrip (v : Int) (h1 : -(2 ^ 31) ≤ v) (h2 : v < 2 ^ 31) :
    Atomics.DINT.deserialize (Atomics.DINT.serialize v (List.replicate 4 0) 0) 0 = v := by
  simp [Atomics.DINT.deserialize, Atomics.DINT.serialize, writeInt32LE, writeUInt32LE,
    readInt32LE, readUInt32LE, List.set, List.getD]
  split <;> omega

theorem udintRoundtrip (v : Nat) (h : v < 2 ^ 32) :
    Atomics.UDINT.deserialize (Atomics.UDINT.serialize v (List.replicate 4 0) 0) 0 = v := by
  simp [Atomics.UDINT.deserialize, Atomics.UDINT.serialize, writeUInt32LE, readUInt32LE,
    List.set, List.getD]
  omega

theorem lintRoundtrip (lo hi : Int) (h1 : -(2 ^ 31) ≤ lo) (h2 : lo < 2 ^ 31)
    (h3 : -(2 ^ 31) ≤ hi) (h4 : hi < 2 ^ 31) :
    Atomics.LINT.deserialize (Atomics.LINT.serialize (lo, hi) (List.replicate 8 0) 0) 0 =
      (lo, hi) := by
  simp [Atomics.LINT.deserialize, Atomics.LINT.serialize, writeInt32LE, writeUInt32LE,
    readInt32LE, readUInt32LE, List.set, List.getD]
  constructor <;> (split <;> omega)

theorem realRoundtrip (pattern : Nat) (h : pattern < 2 ^ 32) :
    Atomics.REAL.deserialize (Atomics.REAL.serialize pattern (List.replicate 4 0) 0) 0 =
      pattern := by
  simp [Atomics.REAL.deserialize, Atomics.REAL.serialize, writeUInt32LE, readUInt32LE,
    List.set, List.getD]
  omega

theorem lrealRoundtrip (lo hi : Int) (h1 : -(2 ^ 31) ≤ lo) (h2 : lo < 2 ^ 31)
    (h3 : -(2 ^ 31) ≤ hi) (h4 : hi < 2 ^ 31) :
    Atomics.LREAL.deserialize (Atomics.LREAL.serialize (lo, hi) (List.replicate 8 0) 0) 0 =
      (lo, hi) := by
  simp [Atomics.LREAL.deserialize, Atomics.LREAL.serialize, writeInt32LE, writeUInt32LE,
    readInt32LE, readUInt32LE, List.set, List.getD]
  constructor <;> (split <;> omega)

theorem timeDeserializeSerialize (v : Nat) (h : v < 2 ^ 64) :
    Atomics.TIME.deserialize (Atomics.TIME.serialize v (List.replicate 8 0) 0) 0 =
      (v : ℚ) / 1000000000 := by
  have hr : readBigUInt64LE (Atomics.TIME.serialize v [0, 0, 0, 0, 0, 0, 0, 0] 0) 0 = v := by
    simp [Atomics.TIME.serialize, writeBigUInt64LE, writeUInt32LE, readBigUInt64LE,
      readUInt32LE, List.set, List.getD]
    omega
  simp [Atomics.TIME.deserialize, hr]

theorem timeNsecDeserializeSerialize (v : Nat) (h : v < 2 ^ 64) :
    Atomics.TIME_NSEC.deserialize (Atomics.TIME_NSEC.serialize v (List.replicate 8 0) 0) 0 =
      (v : ℚ) / 1000000000 := by
  have hr : readBigUInt64LE (Atomics.TIME_NSEC.serialize v [0, 0, 0, 0, 0, 0, 0, 0] 0) 0
      = v := by
    simp [Atomics.TIME_NSEC.serialize, writeBigUInt64LE, writeUInt32LE, readBigUInt64LE,
      readUInt32LE, List.set, List.getD]
    omega
  simp [Atomics.TIME_NSEC.deserialize, hr]

/-! ## Claim C1 -/

/-- C1 counterexample: the claim "deserialize(serialize(v)) == v for every
primitive type" fails for the duration type TIME. Serializing the raw
64-bit count 2000000000 and deserializing yields 2 (seconds), not
2000000000: the codec's duration conversion is one-way. -/
theorem C1_time_roundtrip_cex :
    Atomics.TIME.deserialize (Atomics.TIME.serialize 2000000000 (List.replicate 8 0) 0) 0
        = 2 ∧
    Atomics.TIME.deserialize (Atomics.TIME.serialize 2000000000 (List.replicate 8 0) 0) 0
        ≠ (2000000000 : ℚ) := by
  have hr : readBigUInt64LE (Atomics.TIME.serialize 2000000000 (List.replicate 8 0) 0) 0
      = 2000000000 := by
    norm_num [Atomics.TIME.serialize, writeBigUInt64LE, writeUInt32LE, readBigUInt64LE,
      readUInt32LE, List.set, List.getD, List.replicate]
  constructor
  · rw [Atomics.TIME.deserialize, hr]; norm_num
  · rw [Atomics.TIME.deserialize, hr]; norm_num

/-- C1 (amended): for every primitive type of the atomic codec table except
the duration types, deserializing the result of serializing an in-range
value yields that value back — for booleans at every bit offset 0..7 within
a shared byte, with all other bits of the byte unchanged; for TIME and
TIME_NSEC, deserializing the result of serializing a raw 64-bit count `t`
yields `t / 10^9` (fractional seconds), which differs from `t` whenever
`t ≠ 0`. -/
theorem C1_atomic_roundtrips
    (b off : Nat) (hb : b < 256) (hoff : off < 8) (v : Bool)
    (vs : Int) (hs1 : -128 ≤ vs) (hs2 : vs < 128)
    (vus : Nat) (hus : vus < 256)
    (vi : Int) (hi1 : -(2 ^ 15) ≤ vi) (hi2 : vi < 2 ^ 15)
    (vui : Nat) (hui : vui < 2 ^ 16)
    (vw : Nat) (hw : vw < 2 ^ 16)
    (vd : Int) (hd1 : -(2 ^ 31) ≤ vd) (hd2 : vd < 2 ^ 31)
    (vud : Nat) (hud : vud < 2 ^ 32)
    (llo lhi : Int) (hl1 : -(2 ^ 31) ≤ llo) (hl2 : llo < 2 ^ 31)
    (hl3 : -(2 ^ 31) ≤ lhi) (hl4 : lhi < 2 ^ 31)
    (pr : Nat) (hpr : pr < 2 ^ 32)
    (rlo rhi : Int) (hr1 : -(2 ^ 31) ≤ rlo) (hr2 : rlo < 2 ^ 31)
    (hr3 : -(2 ^ 31) ≤ rhi) (hr4 : rhi < 2 ^ 31)
    (t u : Nat) (ht : t < 2 ^ 64) (hu : u < 2 ^ 64) :
    (Atomics.BOOL.deserialize (Atomics.BOOL.serialize v [b] off) off = v ∧
      (∀ j : Nat, j < 8 → j ≠ off →
        Nat.testBit (readUInt8 (Atomics.BOOL.serialize v [b] off) 0) j = Nat.testBit b j)) ∧
    Atomics.SINT.deserialize (Atomics.SINT.serialize vs (List.replicate 1 0) 0) 0 = vs ∧
    Atomics.USINT.deserialize (Atomics.USINT.serialize vus (List.replicate 1 0) 0) 0 = vus ∧
    Atomics.INT.deserialize (Atomics.INT.serialize vi (List.replicate 2 0) 0) 0 = vi ∧
    Atomics.UINT.deserialize (Atomics.UINT.serialize vui (List.replicate 2 0) 0) 0 = vui ∧
    Atomics.WORD.deserialize (Atomics.WORD.serialize vw (List.replicate 2 0) 0) 0 = vw ∧
    Atomics.DINT.deserialize (Atomics.DINT.serialize vd (List.replicate 4 0) 0) 0 = vd ∧
    Atomics.UDINT.deserialize (Atomics.UDINT.serialize vud (List.replicate 4 0) 0) 0 = vud ∧
    Atomics.LINT.deserialize (Atomics.LINT.serialize (llo, lhi) (List.replicate 8 0) 0) 0 =
      (llo, lhi) ∧
    Atomics.REAL.deserialize (Atomics.REAL.serialize pr (List.replicate 4 0) 0) 0 = pr ∧
    Atomics.LREAL.deserialize (Atomics.LREAL.serialize (rlo, rhi) (List.replicate 8 0) 0) 0 =
      (rlo, rhi) ∧
    Atomics.TIME.deserialize (Atomics.TIME.serialize t (List.replicate 8 0) 0) 0 =
      (t : ℚ) / 1000000000 ∧
    Atomics.TIME_NSEC.deserialize (Atomics.TIME_NSEC.serialize u (List.replicate 8 0) 0) 0 =
      (u : ℚ) / 1000000000 :=
  ⟨boolRoundtrip b hb off hoff v, sintRoundtrip vs hs1 hs2, usintRoundtrip vus hus,
    intRoundtrip vi hi1 hi2, uintRoundtrip vui hui, wordRoundtrip vw hw,
    dintRoundtrip vd hd1 hd2, udintRoundtrip vud hud, lintRoundtrip llo lhi hl1 hl2 hl3 hl4,
    realRoundtrip pr hpr, lrealRoundtrip rlo rhi hr1 hr2 hr3 hr4,
    timeDeserializeSerialize t ht, timeNsecDeserializeSerialize u hu⟩

/-! ## Helper lemmas: `JSON.stringify` is injective on the value model -/

theorem hexVal_hexCh (d : Nat) (h : d < 16) : hexVal (hexCh d) = d := by
  interval_cases d <;> decide

theorem uChar_enc (c : Char) (h : c.toNat < 32) :
    uChar (digitCh 0) (digitCh 0) (hexCh (c.toNat / 16)) (hexCh (c.toNat % 16)) = c := by
  have h1 : hexVal (hexCh (c.toNat / 16)) = c.toNat / 16 := hexVal_hexCh _ (by omega)
  have h2 : hexVal (hexCh (c.toNat % 16)) = c.toNat % 16 := hexVal_hexCh _ (by omega)
  have h0 : hexVal (digitCh 0) = 0 := by decide
  rw [uChar, h0, h1, h2]
  have h3 : ((0 * 16 + 0) * 16 + c.toNat / 16) * 16 + c.toNat % 16 = c.toNat := by omega
  rw [h3, Char.ofNat_toNat]

theorem escChar_parse (c : Char) (t : List Char) :
    parseStrBody (escChar c ++ t) = (parseStrBody t).map fun p => (c :: p.1, p.2) := by
  by_cases hq : c = quoteCh
  · subst hq; simp +decide [escChar, parseStrBody, unescCh]
  · by_cases hb : c = backslashCh
    · subst hb; simp +decide [escChar, parseStrBody, unescCh]
    · by_cases h8 : c = Char.ofNat 8
      · subst h8; simp +decide [escChar, parseStrBody, unescCh]
      · by_cases h9 : c = Char.ofNat 9
        · subst h9; simp +decide [escChar, parseStrBody, unescCh]
        · by_cases h10 : c = Char.ofNat 10
          · subst h10; simp +decide [escChar, parseStrBody, unescCh]
          · by_cases h12 : c = Char.ofNat 12
            · subst h12; simp +decide [escChar, parseStrBody, unescCh]
            · by_cases h13 : c = Char.ofNat 13
              · subst h13; simp +decide [escChar, parseStrBody, unescCh]
              · by_cases hc : c.toNat < 32
                · simp only [escChar, if_neg hq, if_neg hb, if_neg h8, if_neg h9,
                    if_neg h10, if_neg h12, if_neg h13, if_pos hc]
                  simp +decide [parseStrBody]
                  rw [uChar_enc c hc]
                · simp only [escChar, if_neg hq, if_neg hb, if_neg h8, if_neg h9,
                    if_neg h10, if_neg h12, if_neg h13, if_neg hc]
                  rw [List.singleton_append, parseStrBody.eq_def]
                  simp [hq, hb]

theorem parseStrBody_escape (s t : List Char) :
    parseStrBody (escapeChars s ++ quoteCh :: t) = some (s, t) := by
  induction s with
  | nil =>
    rw [show escapeChars [] ++ quoteCh :: t = quoteCh :: t from rfl, parseStrBody.eq_def]
    simp
  | cons c cs ih =>
    rw [show escapeChars (c :: cs) = escChar c ++ escapeChars cs from rfl,
      List.append_assoc, escChar_parse, ih]
    rfl

theorem digitCh_isDigit (d : Nat) (h : d < 10) : (digitCh d).isDigit = true := by
  interval_cases d <;> decide

theorem digitVal_digitCh (d : Nat) (h : d < 10) : digitVal (digitCh d) = d := by
  interval_cases d <;> decide

theorem natDigitsAux_eq_digits (fuel n : Nat) (h : n ≤ fuel) :
    natDigitsAux fuel n = Nat.digits 10 n := by
  induction fuel generalizing n with
  | zero =>
    interval_cases n
    simp [natDigitsAux]
  | succ m ih =>
    cases n with
    | zero => simp [natDigitsAux]
    | succ k =>
      rw [natDigitsAux, ih ((k + 1) / 10) (by omega),
        Nat.digits_def' (by norm_num : 1 < 10) (Nat.succ_pos k)]
      omega

theorem natRender_ne_nil (n : Nat) : natRender n ≠ [] := by
  rw [natRender]
  split
  · simp
  · rw [natDigitsAux_eq_digits n n le_rfl]
    simp [Nat.digits_ne_nil_iff_ne_zero, *]

theorem natRender_digits (n : Nat) : ∀ c ∈ natRender n, c.isDigit = true := by
  rw [natRender]
  split
  · intro c hc; simp at hc; subst hc; decide
  · rw [natDigitsAux_eq_digits n n le_rfl]
    intro c hc
    simp only [List.mem_map, List.mem_reverse] at hc
    obtain ⟨d, hd, rfl⟩ := hc
    exact digitCh_isDigit d (Nat.digits_lt_base (by norm_num) hd)

theorem takeWhile_all_append (p : Char → Bool) (l rest : List Char)
    (hl : ∀ c ∈ l, p c = true) (hrest : ∀ c ∈ rest.head?, p c = false) :
    (l ++ rest).takeWhile p = l ∧ (l ++ rest).dropWhile p = rest := by
  induction l with
  | nil =>
    simp only [List.nil_append]
    cases rest with
    | nil => simp [List.takeWhile, List.dropWhile]
    | cons r rs =>
      have := hrest r (by simp)
      simp [List.takeWhile, List.dropWhile, this]
  | cons c cs ih =>
    have hc : p c = true := hl c (by simp)
    have ihr := ih (fun x hx => hl x (by simp [hx]))
    simp [List.takeWhile, List.dropWhile, hc, ihr.1, ihr.2]

theorem foldl_digits (l : List Nat) (a : Nat) :
    List.foldl (fun x d => 10 * x + d) a l = a * 10 ^ l.length + Nat.ofDigits 10 l.reverse := by
  induction l generalizing a with
  | nil => simp [Nat.ofDigits]
  | cons d ds ih =>
    simp only [List.foldl_cons, ih, List.reverse_cons, Nat.ofDigits_append,
      List.length_cons, List.length_reverse]
    ring_nf
    simp [Nat.ofDigits]
    ring

theorem foldl_digitCh (l : List Nat) (hl : ∀ d ∈ l, d < 10) (a : Nat) :
    List.foldl (fun x c => 10 * x + digitVal c) a (l.map digitCh) =
      List.foldl (fun x d => 10 * x + d) a l := by
  induction l generalizing a with
  | nil => rfl
  | cons d ds ih =>
    simp only [List.map_cons, List.foldl_cons]
    rw [digitVal_digitCh d (hl d (by simp))]
    exact ih (fun x hx => hl x (by simp [hx])) _

theorem parseNatTok_natRender (n : Nat) (rest : List Char)
    (hrest : ∀ c ∈ rest.head?, c.isDigit = false) :
    parseNatTok (natRender n ++ rest) = some (n, rest) := by
  obtain ⟨htake, hdrop⟩ := takeWhile_all_append Char.isDigit (natRender n) rest
    (natRender_digits n) hrest
  rw [parseNatTok]
  simp only [htake, hdrop]
  rw [if_neg (by simp [natRender_ne_nil n])]
  congr 1
  rw [natRender]
  split
  · simp [*, List.foldl]
    decide
  · rw [natDigitsAux_eq_digits n n le_rfl]
    rw [foldl_digitCh _ (fun d hd => Nat.digits_lt_base (by norm_num) (List.mem_reverse.mp hd)) 0]
    rw [foldl_digits]
    simp [Nat.ofDigits_digits]

theorem parseJ_num (fuel : Nat) (m : Int) (rest : List Char)
    (hrest : ∀ c ∈ rest.head?, c.isDigit = false) :
    parseJ (fuel + 1) (intRender m ++ rest) = some (.num m, rest) := by
  by_cases hm : m < 0
  · rw [intRender, if_pos hm]
    simp only [List.cons_append]
    rw [parseJ.eq_def]
    simp +decide [parseNatTok_natRender m.natAbs rest hrest]
    rw [abs_of_neg hm, neg_neg]
  · rw [intRender, if_neg hm]
    rcases hcons : natRender m.toNat with _ | ⟨c, cs⟩
    · exact absurd hcons (natRender_ne_nil _)
    · have hcd : c.isDigit = true := by
        apply natRender_digits m.toNat
        rw [hcons]; simp
      have hcn : ¬c = 'n' := by intro h; rw [h] at hcd; exact absurd hcd (by decide)
      have hct : ¬c = 't' := by intro h; rw [h] at hcd; exact absurd hcd (by decide)
      have hcf : ¬c = 'f' := by intro h; rw [h] at hcd; exact absurd hcd (by decide)
      have hcq : ¬c = quoteCh := by intro h; rw [h] at hcd; exact absurd hcd (by decide)
      have hcl : ¬c = lbraceCh := by intro h; rw [h] at hcd; exact absurd hcd (by decide)
      have hcm : ¬c = '-' := by intro h; rw [h] at hcd; exact absurd hcd (by decide)
      simp only [List.cons_append]
      rw [parseJ.eq_def]
      simp only [if_neg hcn, if_neg hct, if_neg hcf, if_neg hcq, if_neg hcl, if_neg hcm,
        hcd, if_pos]
      rw [← List.cons_append, ← hcons, parseNatTok_natRender m.toNat rest hrest]
      simp
      omega

theorem jweight_pos (v : JsonVal) : 1 ≤ jweight v := by
  cases v <;> simp [jweight]

theorem fweight_pos (fs : List (List Char × JsonVal)) : 1 ≤ fweight fs := by
  cases fs with
  | nil => simp [fweight]
  | cons f fs =>
    obtain ⟨k, v⟩ := f
    have := jweight_pos v
    simp [fweight]
    omega

theorem fieldsRender_cons (k : List Char) (v : JsonVal)
    (fs : List (List Char × JsonVal)) :
    ∃ tl, fieldsRender ((k, v) :: fs) = quoteCh :: tl := by
  cases fs with
  | nil => exact ⟨_, rfl⟩
  | cons f fs2 => exact ⟨_, rfl⟩

/-- The parser inverts `stringifyJ` (with any suffix), given enough fuel:
`stringifyJ` is uniquely decodable. -/
theorem parse_stringify (fuel : Nat) :
    (∀ v rest, jweight v ≤ fuel → numGuardP v rest →
      parseJ fuel (stringifyJ v ++ rest) = some (v, rest)) ∧
    (∀ fs rest, fs ≠ [] → fweight fs ≤ fuel →
      parseFields fuel (fieldsRender fs ++ rbraceCh :: rest) = some (fs, rest)) := by
  induction fuel with
  | zero =>
    constructor
    · intro v rest hw _
      exact absurd hw (by have := jweight_pos v; omega)
    · intro fs rest _ hw
      exact absurd hw (by have := fweight_pos fs; omega)
  | succ n ih =>
    constructor
    · intro v rest hw hg
      match v with
      | .null =>
        rw [show stringifyJ .null = 'n' :: 'u' :: 'l' :: 'l' :: [] from rfl]
        simp only [List.cons_append, List.nil_append]
        rw [parseJ.eq_def]
        simp +decide
      | .bool true =>
        rw [show stringifyJ (.bool true) = 't' :: 'r' :: 'u' :: 'e' :: [] from rfl]
        simp only [List.cons_append, List.nil_append]
        rw [parseJ.eq_def]
        simp +decide
      | .bool false =>
        rw [show stringifyJ (.bool false) = 'f' :: 'a' :: 'l' :: 's' :: 'e' :: [] from rfl]
        simp only [List.cons_append, List.nil_append]
        rw [parseJ.eq_def]
        simp +decide
      | .num m =>
        rw [show stringifyJ (.num m) = intRender m from rfl]
        exact parseJ_num n m rest hg
      | .str s =>
        rw [show stringifyJ (.str s) = quoteCh :: (escapeChars s ++ [quoteCh]) from rfl]
        simp only [List.cons_append, List.append_assoc, List.singleton_append]
        rw [parseJ.eq_def]
        simp +decide [parseStrBody_escape]
      | .obj [] =>
        rw [show stringifyJ (.obj []) = [lbraceCh, rbraceCh] from rfl]
        simp only [List.cons_append, List.nil_append]
        rw [parseJ.eq_def]
        simp +decide
      | .obj ((k, v') :: fs) =>
        have hw' : fweight ((k, v') :: fs) ≤ n := by
          rw [show jweight (.obj ((k, v') :: fs)) = 1 + fweight ((k, v') :: fs) from rfl] at hw
          omega
        obtain ⟨tl, htl⟩ := fieldsRender_cons k v' fs
        rw [show stringifyJ (.obj ((k, v') :: fs)) =
          lbraceCh :: (fieldsRender ((k, v') :: fs) ++ [rbraceCh]) from rfl]
        simp only [List.cons_append, List.append_assoc, List.singleton_append]
        rw [parseJ.eq_def]
        simp +decide only [reduceIte]
        rw [htl]
        simp only [List.cons_append]
        simp +decide only [reduceIte]
        rw [← List.cons_append, ← htl]
        simp only [List.nil_append]
        rw [ih.2 ((k, v') :: fs) rest (by simp) hw']
        rfl
    · intro fs rest hne hw
      match fs with
      | [] => exact absurd rfl hne
      | [(k, v')] =>
        have hwv : jweight v' ≤ n := by
          rw [show fweight [(k, v')] = jweight v' + fweight [] from rfl,
            show fweight ([] : List (List Char × JsonVal)) = 1 from rfl] at hw
          omega
        rw [show fieldsRender [(k, v')] =
          quoteCh :: (escapeChars k ++ quoteCh :: ':' :: stringifyJ v') from rfl]
        simp only [List.cons_append, List.append_assoc]
        rw [parseFields.eq_def]
        simp +decide only [reduceIte]
        rw [parseStrBody_escape]
        simp +decide only [reduceIte]
        rw [ih.1 v' (rbraceCh :: rest) hwv (by
          cases v' <;> simp +decide [numGuardP])]
        simp +decide
      | (k, v') :: (k2, v2) :: fs' =>
        have hwv : jweight v' ≤ n := by
          have h2 := fweight_pos ((k2, v2) :: fs')
          rw [show fweight ((k, v') :: (k2, v2) :: fs') =
            jweight v' + fweight ((k2, v2) :: fs') from rfl] at hw
          omega
        have hwf : fweight ((k2, v2) :: fs') ≤ n := by
          have h1 := jweight_pos v'
          rw [show fweight ((k, v') :: (k2, v2) :: fs') =
            jweight v' + fweight ((k2, v2) :: fs') from rfl] at hw
          omega
        rw [show fieldsRender ((k, v') :: (k2, v2) :: fs') =
          (quoteCh :: (escapeChars k ++ quoteCh :: ':' :: stringifyJ v')) ++
            ',' :: fieldsRender ((k2, v2) :: fs') from rfl]
        simp only [List.cons_append, List.append_assoc]
        rw [parseFields.eq_def]
        simp +decide only [reduceIte]
        rw [parseStrBody_escape]
        simp +decide only [reduceIte]
        rw [ih.1 v' _ hwv (by cases v' <;> simp +decide [numGuardP])]
        simp +decide only [reduceIte]
        rw [ih.2 ((k2, v2) :: fs') rest (by simp) hwf]
        rfl

theorem numGuardP_nil (v : JsonVal) : numGuardP v [] := by
  cases v <;> simp [numGuardP]

/-- `JSON.stringify` is injective on the modelled value universe: two
values with equal serializations are equal (object fields taken in
order). -/
theorem stringifyJ_inj (a b : JsonVal) (h : stringifyJ a = stringifyJ b) : a = b := by
  have ha := (parse_stringify (max (jweight a) (jweight b))).1 a []
    (le_max_left _ _) (numGuardP_nil a)
  have hb := (parse_stringify (max (jweight a) (jweight b))).1 b []
    (le_max_right _ _) (numGuardP_nil b)
  rw [h, hb] at ha
  have h2 : (b, ([] : List Char)) = (a, []) := by simpa using ha
  exact (Prod.mk.injEq _ _ _ _ ▸ h2).1.symm

/-- C1 witness: the amended round-trip law evaluated at concrete in-range
inputs, one per primitive type. -/
theorem C1_atomic_roundtrips_witness :
    Atomics.BOOL.deserialize (Atomics.BOOL.serialize true [170] 3) 3 = true ∧
    Atomics.SINT.deserialize (Atomics.SINT.serialize (-5) (List.replicate 1 0) 0) 0 = -5 ∧
    Atomics.INT.deserialize (Atomics.INT.serialize (-1234) (List.replicate 2 0) 0) 0
      = -1234 ∧
    Atomics.LINT.deserialize
      (Atomics.LINT.serialize (-5, 7) (List.replicate 8 0) 0) 0 = (-5, 7) ∧
    Atomics.TIME.deserialize (Atomics.TIME.serialize 1500000000 (List.replicate 8 0) 0) 0 =
      (1500000000 : ℚ) / 1000000000 := by
  obtain ⟨⟨hbool, hbits⟩, hsint, husint, hint, huint, hword, hdint, hudint, hlint, hreal,
      hlreal, htime, htimen⟩ :=
    C1_atomic_roundtrips 170 3 (by decide) (by decide) true
      (-5) (by decide) (by decide) 200 (by decide)
      (-1234) (by decide) (by decide) 60000 (by decide) 65535 (by decide)
      (-123456789) (by decide) (by decide) 4000000000 (by decide)
      (-5) 7 (by decide) (by decide) (by decide) (by decide)
      12345 (by decide)
      1 (-1) (by decide) (by decide) (by decide) (by decide)
      1500000000 2500000000 (by decide) (by decide)
  exact ⟨hbool, hsint, hint, hlint, htime⟩

/-! ## Helper lemmas: the controller_value setter -/

theorem cvSet_value_staged (s : TagM) (hs : s.stage_write = true) (w : JsonVal) (now : Nat) :
    (controllerValueSet s w now).1.value = s.value := by
  by_cases h1 : stringifyJ w ≠ stringifyJ s.controllerValue
  · rw [controllerValueSet, if_pos h1]
    simp [hs, apply_ite]
  · rw [controllerValueSet, if_neg h1]
    by_cases h2 : 0 < s.keepAlive ∧ s.keepAlive * 1000 ≤ (now : Int) - (s.timestamp : Int)
    · rw [if_pos h2]; simp [hs]
    · rw [if_neg h2]

theorem cvSet_controllerValue (s : TagM) (w : JsonVal) (now : Nat) :
    (controllerValueSet s w now).1.controllerValue = w ∨
      (controllerValueSet s w now).1.controllerValue = s.controllerValue := by
  by_cases h1 : stringifyJ w ≠ stringifyJ s.controllerValue
  · left; rw [controllerValueSet, if_pos h1]; simp [apply_ite]
  · rw [controllerValueSet, if_neg h1]
    by_cases h2 : 0 < s.keepAlive ∧ s.keepAlive * 1000 ≤ (now : Int) - (s.timestamp : Int)
    · left; rw [if_pos h2]
    · right; rw [if_neg h2]

/-! ## Claim C2 -/

/-- C2: whenever `stage_write` is true, `update_controller_value` never
modifies the local value; after `set_local_value(10)`, a subsequent
`update_controller_value(7)` leaves the local value at 10 while the
controller value becomes 7, and a following `unstage_write()` clears
`stage_write` and sets the local value to 7. -/
theorem C2_stage_isolation (s : TagM) (v : JsonVal) (now now2 : Nat)
    (hstage : s.stage_write = true) :
    (controllerValueSet s v now).1.value = s.value ∧
    (controllerValueSet (valueSet s (.num 10)) (.num 7) now2).1.value = .num 10 ∧
    (controllerValueSet (valueSet s (.num 10)) (.num 7) now2).1.controllerValue = .num 7 ∧
    (unstageWriteRequest (controllerValueSet (valueSet s (.num 10)) (.num 7) now2).1).stage_write
      = false ∧
    (unstageWriteRequest (controllerValueSet (valueSet s (.num 10)) (.num 7) now2).1).value
      = .num 7 := by
  have hcv : (controllerValueSet (valueSet s (.num 10)) (.num 7) now2).1.controllerValue
      = .num 7 := by
    rcases cvSet_controllerValue (valueSet s (.num 10)) (.num 7) now2 with h | h
    · exact h
    · by_cases h1 : stringifyJ (.num 7) ≠ stringifyJ (valueSet s (.num 10)).controllerValue
      · rw [controllerValueSet, if_pos h1]
        simp [apply_ite]
      · rw [h, (stringifyJ_inj _ _ (not_not.mp h1)).symm]
  refine ⟨cvSet_value_staged s hstage v now, ?_, hcv, rfl, ?_⟩
  · rw [cvSet_value_staged (valueSet s (.num 10)) rfl (.num 7) now2]; rfl
  · rw [unstageWriteRequest, hcv]

/-- C2 witness: the stage-isolation law evaluated on a concrete staged
tag. -/
theorem C2_stage_isolation_witness :
    (controllerValueSet exTagStaged .null 1).1.value = exTagStaged.value ∧
    (controllerValueSet (valueSet exTagStaged (.num 10)) (.num 7) 2).1.value = .num 10 ∧
    (controllerValueSet (valueSet exTagStaged (.num 10)) (.num 7) 2).1.controllerValue
      = .num 7 ∧
    (unstageWriteRequest
      (controllerValueSet (valueSet exTagStaged (.num 10)) (.num 7) 2).1).stage_write
      = false ∧
    (unstageWriteRequest
      (controllerValueSet (valueSet exTagStaged (.num 10)) (.num 7) 2).1).value = .num 7 :=
  C2_stage_isolation exTagStaged .null 1 2 rfl

/-! ## Claim C3 -/

/-- C3: from an uninitialized tag (controller value null, no write staged,
default keep-alive 0), the update sequence 5, 5, 6 emits exactly
`Initialized`, nothing, and `Changed` carrying previous value 5; after each
emitting call the local value equals the value just applied. -/
theorem C3_change_detection (s0 : TagM) (t1 t2 t3 : Nat)
    (h0 : s0.controllerValue = .null) (hsw : s0.stage_write = false)
    (hka : s0.keepAlive = 0) :
    (controllerValueSet s0 (.num 5) t1).2 = [.Initialized] ∧
    (controllerValueSet s0 (.num 5) t1).1.value = .num 5 ∧
    (controllerValueSet (controllerValueSet s0 (.num 5) t1).1 (.num 5) t2).2 = [] ∧
    (controllerValueSet (controllerValueSet (controllerValueSet s0 (.num 5) t1).1
        (.num 5) t2).1 (.num 6) t3).2 = [.Changed (.num 5)] ∧
    (controllerValueSet (controllerValueSet (controllerValueSet s0 (.num 5) t1).1
        (.num 5) t2).1 (.num 6) t3).1.value = .num 6 := by
  have e1 : controllerValueSet s0 (.num 5) t1 =
      ({ s0 with controllerValue := .num 5, value := .num 5, timestamp := t1 }, [.Initialized]) := by
    rw [controllerValueSet, if_pos (by rw [h0]; decide)]
    simp [h0, hsw, JsonVal.isNull]
  have e2 : controllerValueSet ({ s0 with controllerValue := .num 5, value := .num 5, timestamp := t1 } : TagM) (.num 5) t2 =
      ({ s0 with controllerValue := .num 5, value := .num 5, timestamp := t1 }, []) := by
    rw [controllerValueSet, if_neg (by simp), if_neg (by simp [hka])]
  have e3 : controllerValueSet ({ s0 with controllerValue := .num 5, value := .num 5, timestamp := t1 } : TagM) (.num 6) t3 =
      ({ s0 with controllerValue := .num 6, value := .num 6, timestamp := t3 }, [.Changed (.num 5)]) := by
    rw [controllerValueSet,
      if_pos (show stringifyJ (.num 6) ≠ stringifyJ (.num 5) by decide)]
    simp [hsw, JsonVal.isNull]
  rw [e1]
  simp only [e2, e3]
  simp

/-- C3 witness: the event sequence evaluated on a concrete fresh tag. -/
theorem C3_change_detection_witness :
    (controllerValueSet exTag (.num 5) 1).2 = [.Initialized] ∧
    (controllerValueSet exTag (.num 5) 1).1.value = .num 5 ∧
    (controllerValueSet (controllerValueSet exTag (.num 5) 1).1 (.num 5) 2).2 = [] ∧
    (controllerValueSet (controllerValueSet (controllerValueSet exTag (.num 5) 1).1
        (.num 5) 2).1 (.num 6) 3).2 = [.Changed (.num 5)] ∧
    (controllerValueSet (controllerValueSet (controllerValueSet exTag (.num 5) 1).1
        (.num 5) 2).1 (.num 6) 3).1.value = .num 6 :=
  C3_change_detection exTag 1 2 3 rfl rfl rfl

/-! ## Claim C4 -/

/-- C4 counterexample: the comparison in the `controller_value` setter is
`JSON.stringify` string equality, which is sensitive to object key order.
The objects `{x:1,y:2}` and `{y:2,x:1}` are deep-structurally equal (as
deep-equality utilities define it, modelled by `jsonDeepEqSpec`), yet the
setter treats them as different and emits `Changed`. -/
theorem C4_key_order_cex :
    jsonDeepEqSpec (.obj [("x".toList, .num 1), ("y".toList, .num 2)])
      (.obj [("y".toList, .num 2), ("x".toList, .num 1)]) = true ∧
    ((.obj [("x".toList, .num 1), ("y".toList, .num 2)] : JsonVal) ≠
      .obj [("y".toList, .num 2), ("x".toList, .num 1)]) ∧
    (controllerValueSet
        { exTag with controllerValue := .obj [("x".toList, .num 1), ("y".toList, .num 2)] }
        (.obj [("y".toList, .num 2), ("x".toList, .num 1)]) 0).2 =
      [.Changed (.obj [("x".toList, .num 1), ("y".toList, .num 2)])] :=
  ⟨by decide, fun h => absurd (congrArg stringifyJ h) (by decide), rfl⟩

/-- C4 (amended): `update_controller_value` compares the new value to the
current controller value by JSON-serialization equality, which on the tag's
value universe coincides with structural equality taking object fields in
order (it distinguishes objects whose identical fields appear in different
insertion order): order-aware structurally equal values are treated as
equal (no `Changed` or `Initialized`, at most a `KeepAlive`), and all other
values as different (the value is replaced and `Initialized` or `Changed`
fires). -/
theorem C4_deep_equality (s : TagM) (v : JsonVal) (now : Nat) :
    (v = s.controllerValue →
      ∀ e ∈ (controllerValueSet s v now).2, e = TagEvent.KeepAlive) ∧
    (v ≠ s.controllerValue →
      (controllerValueSet s v now).1.controllerValue = v ∧
      (controllerValueSet s v now).2 =
        [if s.controllerValue.isNull then .Initialized else .Changed s.controllerValue]) := by
  constructor
  · intro hv
    subst hv
    rw [controllerValueSet, if_neg (by simp)]
    by_cases h2 : 0 < s.keepAlive ∧
        s.keepAlive * 1000 ≤ (now : Int) - (s.timestamp : Int)
    · rw [if_pos h2]; simp
    · rw [if_neg h2]; simp
  · intro hv
    have hs : stringifyJ v ≠ stringifyJ s.controllerValue :=
      fun h => hv (stringifyJ_inj _ _ h)
    rw [controllerValueSet, if_pos hs]
    cases hn : s.controllerValue.isNull <;> simp [hn]

/-- C4 witness: a structurally different value is detected and replaces the
controller value, emitting `Initialized` on a fresh tag. -/
theorem C4_deep_equality_witness :
    (controllerValueSet exTag (.num 9) 5).1.controllerValue = .num 9 ∧
    (controllerValueSet exTag (.num 9) 5).2 = [.Initialized] := by
  obtain ⟨ha, hb⟩ := (C4_deep_equality exTag (.num 9) 5).2
    (fun hh => JsonVal.noConfusion hh)
  exact ⟨ha, by rw [hb]; rfl⟩

/-! ## Claim C5 -/

/-- C5: for a tag constructed with datatype BIT_STRING whose address's last
path segment is numeric with value N, the resolved bit index is N mod 32
and the last path segment is replaced by (N − N mod 32) / 32 — for
`tag[44]`, bit index 12 and replaced segment 1 (see the witness). -/
theorem C5_bit_string_remap (tagname ds : List Char) (N : Nat) (t : ParsedPath)
    (hok : parsePathAndBit tagname (some (.code Types.BIT_STRING)) = .ok t)
    (hlast : (splitPath tagname).getLast? = some ds)
    (hnum : isNumericSeg ds = true) (hN : strToNat ds = N) :
    t.bitIndex = some (N % 32) ∧
    t.segs = (splitPath tagname).dropLast ++ [natRender ((N - N % 32) / 32)] := by
  have hgl : (splitPath tagname).getLastD [] = ds := by
    rw [List.getLastD_eq_getLast?, hlast]
    rfl
  have hbs : isBitStringCond tagname (some (.code Types.BIT_STRING)) = true := by
    rw [isBitStringCond, hgl, hnum]
    simp
  rw [parsePathAndBit] at hok
  cases hbi : isBitIndexCond tagname with
  | true =>
    rw [hbs, hbi] at hok
    simp at hok
  | false =>
    rw [hbs, hbi] at hok
    simp only [Bool.and_false, Bool.false_eq_true, if_false, if_true] at hok
    rw [hgl, hN] at hok
    cases hok
    exact ⟨rfl, rfl⟩

/-- C5 witness: for address `tag[44]` and datatype BIT_STRING the
decomposition succeeds with bit index 44 mod 32 = 12, and the final array
segment becomes (44 − 12) / 32 = 1. -/
theorem C5_bit_string_remap_witness :
    (⟨["tag".toList, "1".toList], some 12⟩ : ParsedPath).bitIndex = some (44 % 32) ∧
    (⟨["tag".toList, "1".toList], some 12⟩ : ParsedPath).segs =
      (splitPath "tag[44]".toList).dropLast ++ [natRender ((44 - 44 % 32) / 32)] :=
  C5_bit_string_remap "tag[44]".toList "44".toList 44
    (⟨["tag".toList, "1".toList], some 12⟩ : ParsedPath) rfl rfl rfl rfl

/-! ## Claim C6 -/

/-- C6: whenever both bit-index interpretations apply — the datatype is
BIT_STRING with a numeric last path segment, and the generic trailing-dot
rule also sees a numeric final token (e.g. `tag.5`) — construction always
fails: the decomposition step raises the dedicated mutual-exclusion error
and the constructor propagates a failure. -/
theorem C6_bit_string_bit_index_conflict (enc : List Char → List Nat)
    (hash : List Nat → List Char) (tagname : List Char) (program : Option (List Char))
    (datatype : Option DType) (keepAlive : Int) (now : Nat)
    (hbs : isBitStringCond tagname datatype = true)
    (hbi : isBitIndexCond tagname = true) :
    isErr (tagCtor enc hash tagname program datatype keepAlive now) = true ∧
    parsePathAndBit tagname datatype =
      .error "Tag cannot be defined as a BIT_STRING and have a bit index" := by
  have hp : parsePathAndBit tagname datatype =
      .error "Tag cannot be defined as a BIT_STRING and have a bit index" := by
    rw [parsePathAndBit, hbs, hbi]
    rfl
  refine ⟨?_, hp⟩
  rw [tagCtor.eq_def, hp]
  split
  · rfl
  · split
    · rfl
    · split
      · rfl
      · rfl

/-- C6 witness: constructing `tag.5` as a BIT_STRING fails with the
mutual-exclusion error. -/
theorem C6_bit_string_bit_index_conflict_witness :
    isErr (tagCtor encodeSegEx hashFnEx "tag.5".toList none
      (some (.code Types.BIT_STRING)) 0 0) = true ∧
    parsePathAndBit "tag.5".toList (some (.code Types.BIT_STRING)) =
      .error "Tag cannot be defined as a BIT_STRING and have a bit index" :=
  C6_bit_string_bit_index_conflict encodeSegEx hashFnEx "tag.5".toList none
    (some (.code Types.BIT_STRING)) 0 0 rfl rfl

/-! ## Claim C7 -/

/-- C7: a trailing numeric dot segment is removed from the path and taken
as an explicit bit index bounded by 0–31: construction of `tag.0` and
`tag.31` succeeds with bit indices 0 and 31, while `tag.32` fails with the
range error. -/
theorem C7_bit_index_bounds (enc : List Char → List Nat) (hash : List Nat → List Char)
    (now : Nat) :
    exceptBitIndex (tagCtor enc hash "tag.0".toList none none 0 now) = some (some 0) ∧
    exceptBitIndex (tagCtor enc hash "tag.31".toList none none 0 now) = some (some 31) ∧
    tagCtor enc hash "tag.32".toList none none 0 now =
      .error "Tag bit index must be between 0 and 31" :=
  ⟨rfl, rfl, rfl⟩

/-! ## Claim C8 -/

/-- C8: a masked bit write on a 16-bit (INT) tag with bit index 3 produces
the payload little-endian mask length 2, then OR-mask 0x0008 and AND-mask
0xFFFF for a truthy staged value, and OR-mask 0x0000 and AND-mask 0xFFF7
for a falsy one, wrapped as a read-modify-write request on the tag's
path. -/
theorem C8_bitmask_write (s : TagM) (h1 : s.type = some (.code Types.INT))
    (h2 : s.bitIndex = some 3) :
    (jsTruthy s.value = true → generateWriteMessageRequest s none 1 =
      .ok (s, ⟨READ_MODIFY_WRITE_TAG, s.path, [2, 0, 8, 0, 255, 255]⟩)) ∧
    (jsTruthy s.value = false → generateWriteMessageRequest s none 1 =
      .ok (s, ⟨READ_MODIFY_WRITE_TAG, s.path, [2, 0, 0, 0, 247, 255]⟩)) := by
  constructor <;> intro ht <;>
  · rw [generateWriteMessageRequest]
    simp +decide [h1, h2, ht, writeInt16LE, writeUInt16LE, writeUInt8, jsNotU32,
      List.set]

/-- C8 witness: the two mask payloads evaluated on concrete INT tags with a
truthy and a falsy staged value. -/
theorem C8_bitmask_write_witness :
    generateWriteMessageRequest exTagINTtrue none 1 =
      .ok (exTagINTtrue, ⟨READ_MODIFY_WRITE_TAG, exTagINTtrue.path,
        [2, 0, 8, 0, 255, 255]⟩) ∧
    generateWriteMessageRequest exTagINTfalse none 1 =
      .ok (exTagINTfalse, ⟨READ_MODIFY_WRITE_TAG, exTagINTfalse.path,
        [2, 0, 0, 0, 247, 255]⟩) :=
  ⟨(C8_bitmask_write exTagINTtrue rfl rfl).1 rfl,
   (C8_bitmask_write exTagINTfalse rfl rfl).2 rfl⟩

/-! ## Claim C9 -/

/-- C9: with keep-alive of 1 second, feeding the same value again within a
second of the last update changes nothing and emits nothing; feeding it
once at least a second has elapsed emits `KeepAlive`, refreshes the
timestamp and reassigns the controller value; and `KeepAlive` is never
emitted when keep-alive is 0 or the elapsed time is below the threshold. -/
theorem C9_keep_alive (s : TagM) (v : JsonVal) (now : Nat) :
    (s.keepAlive = 1 → stringifyJ v = stringifyJ s.controllerValue →
      (((now : Int) - (s.timestamp : Int) < 1000 → controllerValueSet s v now = (s, [])) ∧
       (1000 ≤ (now : Int) - (s.timestamp : Int) →
         (controllerValueSet s v now).2 = [.KeepAlive] ∧
         (controllerValueSet s v now).1.timestamp = now ∧
         (controllerValueSet s v now).1.controllerValue = v))) ∧
    (s.keepAlive = 0 ∨ (now : Int) - (s.timestamp : Int) < s.keepAlive * 1000 →
      TagEvent.KeepAlive ∉ (controllerValueSet s v now).2) := by
  constructor
  · intro hka heq
    constructor
    · intro hlt
      rw [controllerValueSet, if_neg (by simp [heq]), if_neg (by rw [hka]; omega)]
    · intro hge
      rw [controllerValueSet, if_neg (by simp [heq]),
        if_pos (by rw [hka]; exact ⟨by norm_num, by simpa using hge⟩)]
      exact ⟨rfl, rfl, rfl⟩
  · intro h
    by_cases h1 : stringifyJ v ≠ stringifyJ s.controllerValue
    · rw [controllerValueSet, if_pos h1]
      cases hn : s.controllerValue.isNull <;> simp [hn]
    · rw [controllerValueSet, if_neg h1]
      by_cases h2 : 0 < s.keepAlive ∧
          s.keepAlive * 1000 ≤ (now : Int) - (s.timestamp : Int)
      · exfalso
        rcases h with h | h
        · omega
        · have := h2.2; have := h2.1; omega
      · rw [if_neg h2]; simp

/-- C9 witness: on a concrete keep-alive-1 tag, a same-value update 500 ms
after the last update is a no-op, one 1000 ms after emits `KeepAlive` and
refreshes the timestamp; with keep-alive 0 no `KeepAlive` is ever
emitted. -/
theorem C9_keep_alive_witness :
    controllerValueSet exTagKA (.num 5) 1500 = (exTagKA, []) ∧
    (controllerValueSet exTagKA (.num 5) 2000).2 = [.KeepAlive] ∧
    (controllerValueSet exTagKA (.num 5) 2000).1.timestamp = 2000 ∧
    TagEvent.KeepAlive ∉ (controllerValueSet exTag (.num 1) 7).2 :=
  ⟨((C9_keep_alive exTagKA (.num 5) 1500).1 rfl rfl).1 (by decide),
    (((C9_keep_alive exTagKA (.num 5) 2000).1 rfl rfl).2 (by decide)).1,
    (((C9_keep_alive exTagKA (.num 5) 2000).1 rfl rfl).2 (by decide)).2.1,
    (C9_keep_alive exTag (.num 1) 7).2 (Or.inl rfl)⟩

/-! ## Claim C10 -/

/-- C10: assigning a new grammar-valid name to a constructed tag changes
only the stored name — the wire path bytes, the bit index, the program
scope and the identity value all remain as computed at construction. -/
theorem C10_name_set_frame (s s' : TagM) (n : List Char) (h : nameSet s n = .ok s') :
    s'.path = s.path ∧ s'.bitIndex = s.bitIndex ∧ s'.program = s.program ∧
    s'.instId = s.instId ∧ s'.name = n := by
  rw [nameSet] at h
  by_cases hv : isValidTagname n = true
  · rw [if_neg (by simp [hv])] at h
    cases h
    exact ⟨rfl, rfl, rfl, rfl, rfl⟩
  · rw [if_pos (by simp [Bool.not_eq_true] at hv ⊢; exact hv)] at h
    cases h

/-- C10 witness: renaming a concrete tag to `abc` preserves path, bit
index, program scope and identity. -/
theorem C10_name_set_frame_witness :
    ({ exTag with name := "abc".toList } : TagM).path = exTag.path ∧
    ({ exTag with name := "abc".toList } : TagM).bitIndex = exTag.bitIndex ∧
    ({ exTag with name := "abc".toList } : TagM).program = exTag.program ∧
    ({ exTag with name := "abc".toList } : TagM).instId = exTag.instId ∧
    ({ exTag with name := "abc".toList } : TagM).name = "abc".toList :=
  C10_name_set_frame exTag _ "abc".toList rfl

end EIP
